import Mathlib

/-!
A shallow embedding of `src/torch/dataset.py` (classes `AudioFile`,
`LstDataset`, `DatasetFromDisk`) and proofs about it.

Modelling conventions:
* audio samples are rationals (`ℚ`), standing for the real-valued samples;
* the external decoding capability `sf.read` is an explicit function
  argument `decode : String → List ℚ × ℕ` returning `(samples, sample_rate)`;
* Python exceptions (`IndexError` / `StopIteration`) are modelled with
  `Option`: `none` is the raised exception;
* mutation of an `AudioFile` (its `frame_counter` cursor, and `zero_pad`'s
  append) is explicit state passing: an operation returns the new state;
* Python's `int(a / b)` on the nonnegative integers `audio_length` and
  `frame_length` is true division in `ℚ` followed by truncation, i.e.
  `⌊(a : ℚ) / b⌋₊`;
* Python list indexing `xs[i]` for `i : ℤ` resolves negative indices from
  the end of the list (`pyGet` below).
-/

/-- One audio file, as in class `AudioFile` of `src/torch/dataset.py`:
`audio_data` and `sample_rate` are what `sf.read` returned, `frame_length`
is the configured frame size in samples, and `frame_counter` is the mutable
iteration cursor (0 after construction).  `audio_length` is not a separate
field: the Python code keeps `self.audio_length == len(self.audio_data)`
at all times (set in `load_audio_data`, recomputed in `zero_pad`), so it is
modelled as the derived value `audio_data.length`. -/
structure AudioFile where
  audiofile_path : String
  audio_data : List ℚ
  sample_rate : ℕ
  frame_length : ℕ
  frame_counter : ℕ
deriving DecidableEq

/-- Model of `AudioFile.__init__` + `load_audio_data`: decode the file at `path`
and start with `frame_counter = 0`. -/
def AudioFile.load (decode : String → List ℚ × ℕ) (path : String)
    (frame_length : ℕ) : AudioFile :=
  { audiofile_path := path
    audio_data := (decode path).1
    sample_rate := (decode path).2
    frame_length := frame_length
    frame_counter := 0 }

/-- Model of `AudioFile.__len__`: `int(self.audio_length / self.frame_length)` —
true division followed by truncation toward zero (both operands are
nonnegative, so truncation is the floor). -/
def AudioFile.len (a : AudioFile) : ℕ :=
  ⌊(a.audio_data.length : ℚ) / (a.frame_length : ℚ)⌋₊

/-- Model of `AudioFile.has_next_frame`: `self.frame_counter <= len(self)`. -/
def AudioFile.has_next_frame (a : AudioFile) : Bool :=
  a.frame_counter ≤ a.len

/-- Model of `AudioFile.get_frame`: the slice
`self.audio_data[frame_idx*frame_length : frame_idx*frame_length + frame_length]`
(Python slicing never fails: out-of-range slices are truncated or empty). -/
def AudioFile.get_frame (a : AudioFile) (frame_idx : ℕ) : List ℚ :=
  (a.audio_data.drop (frame_idx * a.frame_length)).take a.frame_length

/-- Model of `AudioFile.get_next_frame`: slice at the current cursor, then
unconditionally increment the cursor; returns (frame, new state). -/
def AudioFile.get_next_frame (a : AudioFile) : List ℚ × AudioFile :=
  (a.get_frame a.frame_counter, { a with frame_counter := a.frame_counter + 1 })

/-- Model of `AudioFile.zero_pad`: if `audio_length % frame_length != 0`, append
`frame_length - audio_length % frame_length` zero samples. -/
def AudioFile.zero_pad (a : AudioFile) : AudioFile :=
  if a.audio_data.length % a.frame_length = 0 then a
  else { a with audio_data :=
          a.audio_data ++
            List.replicate (a.frame_length - a.audio_data.length % a.frame_length) 0 }

/-- Model of `AudioFile.__next__`: if the cursor has reached `len(self)`, reset it
to 0 and raise `StopIteration` (modelled as `none`); otherwise yield the
frame at the cursor and increment it. -/
def AudioFile.next (a : AudioFile) : Option (List ℚ) × AudioFile :=
  if a.len ≤ a.frame_counter then (none, { a with frame_counter := 0 })
  else (some (a.get_frame a.frame_counter), { a with frame_counter := a.frame_counter + 1 })

@[simp] lemma AudioFile.len_set_counter (a : AudioFile) (k : ℕ) :
    ({ a with frame_counter := k } : AudioFile).len = a.len := rfl

@[simp] lemma AudioFile.get_frame_set_counter (a : AudioFile) (k j : ℕ) :
    ({ a with frame_counter := k } : AudioFile).get_frame j = a.get_frame j := rfl

/-- Python's `int(audio_length / frame_length)` equals natural floor division (this
holds also at `frame_length = 0`, where both sides are `0` in the model;
Python would raise `ZeroDivisionError` there, but the configuration
invariant keeps `frame_length > 0`). -/
lemma AudioFile.len_eq_div (a : AudioFile) :
    a.len = a.audio_data.length / a.frame_length := by
  unfold AudioFile.len
  rcases Nat.eq_zero_or_pos a.frame_length with h | h
  · simp [h]
  · rw [Nat.floor_div_nat, Nat.floor_natCast]

/-- Python's `for` loop over an `AudioFile` (which is its own iterator):
repeatedly call `__next__`, collecting the yielded frames, until
`StopIteration`.  `fuel` bounds the number of `__next__` calls; the wrapper
`AudioFile.iterate` supplies `len + 1` calls, which is always enough
because each yielding call increments the cursor toward `len`. -/
def AudioFile.iterAux : ℕ → AudioFile → List (List ℚ) × AudioFile
  | 0, a => ([], a)
  | fuel + 1, a =>
    match a.next with
    | (none, a') => ([], a')
    | (some f, a') =>
      let p := AudioFile.iterAux fuel a'
      (f :: p.1, p.2)

/-- The full run of Python's iteration protocol over an `AudioFile`:
the list of frames yielded before `StopIteration`, and the state after
`StopIteration` was raised (cursor reset to 0). -/
def AudioFile.iterate (a : AudioFile) : List (List ℚ) × AudioFile :=
  AudioFile.iterAux (a.len + 1) a

/-- With enough fuel, the iteration run yields exactly the frames from the
current cursor up to `len - 1`, and ends in the cursor-reset state. -/
lemma AudioFile.iterAux_spec :
    ∀ (fuel : ℕ) (a : AudioFile), a.len - a.frame_counter < fuel →
      AudioFile.iterAux fuel a
        = ((List.range' a.frame_counter (a.len - a.frame_counter)).map a.get_frame,
           { a with frame_counter := 0 }) := by
  intro fuel
  induction fuel with
  | zero => intro a h; omega
  | succ fuel ih =>
    intro a h
    by_cases hc : a.len ≤ a.frame_counter
    · have hz : a.len - a.frame_counter = 0 := by omega
      simp [AudioFile.iterAux, AudioFile.next, hc, hz]
    · push_neg at hc
      have hrec := ih { a with frame_counter := a.frame_counter + 1 } (by simp; omega)
      have hn : a.len - a.frame_counter = (a.len - (a.frame_counter + 1)) + 1 := by omega
      have hnext : a.next
          = (some (a.get_frame a.frame_counter),
             { a with frame_counter := a.frame_counter + 1 }) := by
        unfold AudioFile.next
        rw [if_neg (by omega)]
      simp only [AudioFile.iterAux, hnext]
      simp only [hrec]
      have hg : ({ a with frame_counter := a.frame_counter + 1 } : AudioFile).get_frame
          = a.get_frame := rfl
      rw [hg, hn, List.range'_succ]
      simp

/-- Characterisation of a full iteration run starting at cursor `c ≤ len`. -/
lemma AudioFile.iterate_spec (a : AudioFile) :
    a.iterate
      = ((List.range' a.frame_counter (a.len - a.frame_counter)).map a.get_frame,
         { a with frame_counter := 0 }) := by
  exact AudioFile.iterAux_spec (a.len + 1) a (by omega)

/-- From a fresh cursor, iteration yields frames `0 .. len-1` in order. -/
lemma AudioFile.iterate_of_counter_zero (a : AudioFile) (h : a.frame_counter = 0) :
    a.iterate = ((List.range a.len).map a.get_frame, { a with frame_counter := 0 }) := by
  rw [AudioFile.iterate_spec, h, List.range_eq_range']
  simp

/-- The silence threshold `1e-8` of `compute_frame_list_from_audio_files`. -/
def silence_threshold : ℚ := 1 / 100000000

/-- Model of `np.sum(abs(frame)**2)/len(frame)`: mean squared amplitude of a frame. -/
def frame_energy (frame : List ℚ) : ℚ :=
  (frame.map (fun s => |s| ^ 2)).sum / (frame.length : ℚ)

/-- Whether frame `j` of file `a` passes the silence test of the index
builder: `frame_energy > silence_threshold`. -/
def passes (a : AudioFile) (j : ℕ) : Bool :=
  decide (silence_threshold < frame_energy (a.get_frame j))

/-- The inner loop of `LstDataset.compute_frame_list_from_audio_files`:
`for frameIdx, frame in enumerate(audiofile): if energy > threshold:
frames.append((audioIdx, frameIdx))`.  `frameIdx` is `enumerate`'s counter,
`fuel` bounds the number of `__next__` calls as in `AudioFile.iterAux`. -/
def LstDataset.scan_file (audioIdx frameIdx : ℕ) :
    ℕ → AudioFile → List (ℕ × ℕ) × AudioFile
  | 0, a => ([], a)
  | fuel + 1, a =>
    match a.next with
    | (none, a') => ([], a')
    | (some frame, a') =>
      let p := LstDataset.scan_file audioIdx (frameIdx + 1) fuel a'
      (if silence_threshold < frame_energy frame then (audioIdx, frameIdx) :: p.1
       else p.1,
       p.2)

/-- The outer loop of `LstDataset.compute_frame_list_from_audio_files`:
`for audioIdx, audiofile in enumerate(audio_files_array): ...`, starting
`enumerate` at `audioIdx`.  Returns the accumulated `self.frames` list and
the post-scan states of the scanned `AudioFile`s (the Python code mutates
them in place). -/
def LstDataset.compute_frame_list_from_audio_files :
    ℕ → List AudioFile → List (ℕ × ℕ) × List AudioFile
  | _, [] => ([], [])
  | audioIdx, a :: rest =>
    let r := LstDataset.scan_file audioIdx 0 (a.len + 1) a
    let rr := LstDataset.compute_frame_list_from_audio_files (audioIdx + 1) rest
    (r.1 ++ rr.1, r.2 :: rr.2)

/-- Configuration object: the only field the dataset core reads. -/
structure Parameters where
  frame_length : ℕ
deriving DecidableEq

/-- Class `LstDataset` after `__init__`: manifest columns, decoded audio
files and the computed frame list.  `lst_source`/`lst_target` are the
`source` and `target` columns of `self.lst_data`. -/
structure LstDataset where
  parameters : Parameters
  lst_source : List String
  lst_target : List String
  source_audio_files : List AudioFile
  target_audio_files : List AudioFile
  frames : List (ℕ × ℕ)
deriving DecidableEq

/-- Model of `LstDataset.__init__`: load every source and target file, then build
the frame list by scanning the source files (which advances and finally
resets their cursors; the stored `source_audio_files` are the post-scan
states, since Python mutates the file objects in place). -/
def LstDataset.build (decode : String → List ℚ × ℕ) (parameters : Parameters)
    (sources targets : List String) : LstDataset :=
  let src := sources.map (fun p => AudioFile.load decode p parameters.frame_length)
  let tgt := targets.map (fun p => AudioFile.load decode p parameters.frame_length)
  let r := LstDataset.compute_frame_list_from_audio_files 0 src
  { parameters := parameters
    lst_source := sources
    lst_target := targets
    source_audio_files := r.2
    target_audio_files := tgt
    frames := r.1 }

/-- Model of `LstDataset.__len__`. -/
def LstDataset.length (d : LstDataset) : ℕ := d.frames.length

/-- Python list indexing `xs[i]` for `i : ℤ`: a negative index is resolved
from the end; `none` is the raised `IndexError`. -/
def pyGet {α : Type} (xs : List α) (i : ℤ) : Option α :=
  let j := if i < 0 then i + xs.length else i
  if j < 0 then none else xs[j.toNat]?

/-- Model of `torch.Tensor(frame).unsqueeze(1)`: a length-`n` vector becomes an
`[n, 1]` array, one singleton row per sample. -/
def unsqueeze1 (xs : List ℚ) : List (List ℚ) :=
  xs.map (fun x => [x])

/-- Model of `LstDataset.__getitem__`: resolve the flat index through `self.frames`
(Python indexing), then slice the resident source and target files. -/
def LstDataset.getitem (d : LstDataset) (idx : ℤ) :
    Option (List (List ℚ) × List (List ℚ)) :=
  match pyGet d.frames idx with
  | none => none
  | some (audio_idx, frame_idx) =>
    match d.source_audio_files[audio_idx]?, d.target_audio_files[audio_idx]? with
    | some sf, some tf =>
      some (unsqueeze1 (sf.get_frame frame_idx), unsqueeze1 (tf.get_frame frame_idx))
    | _, _ => none

/-- Class `DatasetFromDisk` after `__init__`: the same construction as
`LstDataset` followed by `delete_audio_data`, so only the manifest columns
and the frame list remain. -/
structure DatasetFromDisk where
  parameters : Parameters
  lst_source : List String
  lst_target : List String
  frames : List (ℕ × ℕ)
deriving DecidableEq

/-- Model of `DatasetFromDisk.__init__`: build exactly as `LstDataset.__init__`,
then drop the decoded audio arrays. -/
def DatasetFromDisk.build (decode : String → List ℚ × ℕ) (parameters : Parameters)
    (sources targets : List String) : DatasetFromDisk :=
  let d := LstDataset.build decode parameters sources targets
  { parameters := d.parameters
    lst_source := d.lst_source
    lst_target := d.lst_target
    frames := d.frames }

/-- Model of `DatasetFromDisk.__getitem__`: resolve the flat index through
`self.frames`, then freshly decode the source and target files named by
the manifest row and slice them. -/
def DatasetFromDisk.getitem (decode : String → List ℚ × ℕ)
    (d : DatasetFromDisk) (idx : ℤ) :
    Option (List (List ℚ) × List (List ℚ)) :=
  match pyGet d.frames idx with
  | none => none
  | some (audio_idx, frame_idx) =>
    match d.lst_source[audio_idx]?, d.lst_target[audio_idx]? with
    | some sp, some tp =>
      some (unsqueeze1 ((AudioFile.load decode sp d.parameters.frame_length).get_frame frame_idx),
            unsqueeze1 ((AudioFile.load decode tp d.parameters.frame_length).get_frame frame_idx))
    | _, _ => none

/-- Whatever `frameIdx` offset is used, a full scan leaves the file in the
cursor-reset state (the state `StopIteration` produces). -/
lemma LstDataset.scan_file_snd :
    ∀ (fuel : ℕ) (a : AudioFile) (i k : ℕ), a.len - a.frame_counter < fuel →
      (LstDataset.scan_file i k fuel a).2 = { a with frame_counter := 0 } := by
  intro fuel
  induction fuel with
  | zero => intro a i k h; omega
  | succ fuel ih =>
    intro a i k h
    by_cases hc : a.len ≤ a.frame_counter
    · simp [LstDataset.scan_file, AudioFile.next, hc]
    · push_neg at hc
      have hnext : a.next
          = (some (a.get_frame a.frame_counter),
             { a with frame_counter := a.frame_counter + 1 }) := by
        unfold AudioFile.next
        rw [if_neg (by omega)]
      simp only [LstDataset.scan_file, hnext]
      have hrec := ih { a with frame_counter := a.frame_counter + 1 } i (k + 1)
        (by simp; omega)
      by_cases hp : silence_threshold < frame_energy (a.get_frame a.frame_counter) <;>
        simp [hp, hrec]

/-- When `enumerate`'s counter coincides with the cursor (as it does on a
freshly constructed file, where both are 0), a full scan appends exactly
the passing frame indices from the cursor to `len - 1`, tagged with the
file index. -/
lemma LstDataset.scan_file_spec (i : ℕ) :
    ∀ (fuel : ℕ) (a : AudioFile), a.len - a.frame_counter < fuel →
      LstDataset.scan_file i a.frame_counter fuel a
        = (((List.range' a.frame_counter (a.len - a.frame_counter)).filter
              (passes a)).map (fun j => (i, j)),
           { a with frame_counter := 0 }) := by
  intro fuel
  induction fuel with
  | zero => intro a h; omega
  | succ fuel ih =>
    intro a h
    by_cases hc : a.len ≤ a.frame_counter
    · have hz : a.len - a.frame_counter = 0 := by omega
      simp [LstDataset.scan_file, AudioFile.next, hc, hz]
    · push_neg at hc
      have hnext : a.next
          = (some (a.get_frame a.frame_counter),
             { a with frame_counter := a.frame_counter + 1 }) := by
        unfold AudioFile.next
        rw [if_neg (by omega)]
      have hrec := ih { a with frame_counter := a.frame_counter + 1 } (by simp; omega)
      have hpasses : passes { a with frame_counter := a.frame_counter + 1 } = passes a := rfl
      rw [hpasses] at hrec
      have hn : a.len - a.frame_counter = (a.len - (a.frame_counter + 1)) + 1 := by omega
      simp only [LstDataset.scan_file, hnext, hrec]
      rw [hn, List.range'_succ, List.filter_cons]
      by_cases hp : silence_threshold < frame_energy (a.get_frame a.frame_counter) <;>
        simp [hp, passes]

/-- A full index build leaves every scanned file in the cursor-reset state
and mutates nothing else. -/
lemma LstDataset.compute_frame_list_snd :
    ∀ (files : List AudioFile) (i : ℕ),
      (LstDataset.compute_frame_list_from_audio_files i files).2
        = files.map (fun a => { a with frame_counter := 0 }) := by
  intro files
  induction files with
  | nil => intro i; rfl
  | cons a rest ih =>
    intro i
    simp only [LstDataset.compute_frame_list_from_audio_files, List.map_cons]
    rw [LstDataset.scan_file_snd (a.len + 1) a i 0 (by omega), ih]

/-- The frame list contributed by one file: the passing frame indices in
ascending order, tagged with the file index. -/
def passList (i : ℕ) (a : AudioFile) : List (ℕ × ℕ) :=
  ((List.range a.len).filter (passes a)).map (fun j => (i, j))

/-- The frame lists of consecutive files starting at file index `i`,
concatenated in order. -/
def passLists : ℕ → List AudioFile → List (ℕ × ℕ)
  | _, [] => []
  | i, a :: rest => passList i a ++ passLists (i + 1) rest

/-- The number of (file, frame) pairs that pass the silence test. -/
def numPassing (files : List AudioFile) : ℕ :=
  (files.map (fun a => ((List.range a.len).filter (passes a)).length)).sum

/-- On files with fresh cursors (as built by `LstDataset.__init__`), the
index builder produces exactly the concatenated passing-frame lists. -/
lemma LstDataset.compute_frame_list_fst :
    ∀ (files : List AudioFile) (i : ℕ), (∀ a ∈ files, a.frame_counter = 0) →
      (LstDataset.compute_frame_list_from_audio_files i files).1
        = passLists i files := by
  intro files
  induction files with
  | nil => intro i _; rfl
  | cons a rest ih =>
    intro i h
    have ha : a.frame_counter = 0 := h a (by simp)
    simp only [LstDataset.compute_frame_list_from_audio_files, passLists]
    have hscan := LstDataset.scan_file_spec i (a.len + 1) a (by omega)
    rw [ha] at hscan
    rw [hscan, ih (i + 1) (fun b hb => h b (by simp [hb]))]
    simp [passList, List.range_eq_range', ha]

/-- Membership in the concatenated passing-frame lists. -/
lemma passLists_mem :
    ∀ (files : List AudioFile) (i p j : ℕ),
      ((p, j) ∈ passLists i files
        ↔ ∃ t a, files[t]? = some a ∧ p = i + t ∧ j < a.len ∧ passes a j = true) := by
  intro files
  induction files with
  | nil => intro i p j; simp [passLists]
  | cons a rest ih =>
    intro i p j
    simp only [passLists, List.mem_append, ih (i + 1)]
    constructor
    · rintro (h | ⟨t, b, hb, hp, hj, hpass⟩)
      · simp only [passList, List.mem_map, List.mem_filter, List.mem_range,
          Prod.mk.injEq] at h
        obtain ⟨j', ⟨hj', hpass'⟩, hi, hjj⟩ := h
        exact ⟨0, a, by simp, by omega, by omega, by rw [← hjj]; exact hpass'⟩
      · exact ⟨t + 1, b, by simpa using hb, by omega, hj, hpass⟩
    · rintro ⟨t, b, hb, hp, hj, hpass⟩
      cases t with
      | zero =>
        simp only [List.getElem?_cons_zero, Option.some.injEq] at hb
        subst hb
        left
        simp only [passList, List.mem_map, List.mem_filter, List.mem_range]
        have hpi : p = i := by omega
        exact ⟨j, ⟨hj, hpass⟩, by rw [hpi]⟩
      | succ t =>
        right
        exact ⟨t, b, by simpa using hb, by omega, hj, hpass⟩

/-- Every entry of `passLists i files` has file index at least `i`. -/
lemma passLists_fst_ge :
    ∀ (files : List AudioFile) (i : ℕ), ∀ x ∈ passLists i files, i ≤ x.1 := by
  intro files
  induction files with
  | nil => intro i x hx; simp [passLists] at hx
  | cons a rest ih =>
    intro i x hx
    simp only [passLists, List.mem_append] at hx
    rcases hx with hx | hx
    · simp only [passList, List.mem_map] at hx
      obtain ⟨j, _, hj⟩ := hx
      subst hj; simp
    · exact Nat.le_of_succ_le (ih (i + 1) x hx)

/-- The concatenated passing-frame lists are strictly ascending in the
lexicographic order on (file index, frame index). -/
lemma passLists_pairwise :
    ∀ (files : List AudioFile) (i : ℕ),
      (passLists i files).Pairwise
        (fun x y : ℕ × ℕ => x.1 < y.1 ∨ (x.1 = y.1 ∧ x.2 < y.2)) := by
  intro files
  induction files with
  | nil => intro i; simp [passLists]
  | cons a rest ih =>
    intro i
    rw [passLists, List.pairwise_append]
    refine ⟨?_, ih (i + 1), ?_⟩
    · have hr : ((List.range a.len).filter (passes a)).Pairwise (· < ·) :=
        (List.pairwise_lt_range a.len).sublist (List.filter_sublist _)
      exact hr.map _ (fun x y hxy => Or.inr ⟨rfl, hxy⟩)
    · intro x hx y hy
      have hx1 : x.1 = i := by
        simp only [passList, List.mem_map] at hx
        obtain ⟨j, _, hj⟩ := hx
        subst hj; rfl
      have hy1 := passLists_fst_ge rest (i + 1) y hy
      left; omega

/-- The length of the concatenated passing-frame lists is the total number
of passing (file, frame) pairs. -/
lemma passLists_length :
    ∀ (files : List AudioFile) (i : ℕ),
      (passLists i files).length = numPassing files := by
  intro files
  induction files with
  | nil => intro i; rfl
  | cons a rest ih =>
    intro i
    simp [passLists, passList, numPassing, ih (i + 1)]

/-- The source files an `LstDataset` is built from (fresh cursors). -/
def sourceFiles (decode : String → List ℚ × ℕ) (parameters : Parameters)
    (sources : List String) : List AudioFile :=
  sources.map (fun p => AudioFile.load decode p parameters.frame_length)

/-- The frame list of a freshly built `LstDataset` is the concatenated
passing-frame list of its source files. -/
lemma LstDataset.build_frames (decode : String → List ℚ × ℕ)
    (parameters : Parameters) (sources targets : List String) :
    (LstDataset.build decode parameters sources targets).frames
      = passLists 0 (sourceFiles decode parameters sources) := by
  unfold LstDataset.build sourceFiles
  apply LstDataset.compute_frame_list_fst
  intro a ha
  simp only [List.mem_map] at ha
  obtain ⟨p, _, hp⟩ := ha
  subst hp; rfl

/-- After construction the stored source files are exactly the freshly
loaded ones: the scan left every cursor at 0 and touched nothing else. -/
lemma LstDataset.build_source_audio_files (decode : String → List ℚ × ℕ)
    (parameters : Parameters) (sources targets : List String) :
    (LstDataset.build decode parameters sources targets).source_audio_files
      = sourceFiles decode parameters sources := by
  show (LstDataset.compute_frame_list_from_audio_files 0
      (sources.map (fun p => AudioFile.load decode p parameters.frame_length))).2
    = sourceFiles decode parameters sources
  rw [LstDataset.compute_frame_list_snd, List.map_map]
  exact List.map_congr_left (fun p _ => rfl)

/-- The stored target files are the freshly loaded ones (never scanned). -/
lemma LstDataset.build_target_audio_files (decode : String → List ℚ × ℕ)
    (parameters : Parameters) (sources targets : List String) :
    (LstDataset.build decode parameters sources targets).target_audio_files
      = targets.map (fun p => AudioFile.load decode p parameters.frame_length) := rfl

/-- A frame slice is full-length whenever the samples reach its end. -/
lemma AudioFile.get_frame_length_of_le (a : AudioFile) (j : ℕ)
    (h : (j + 1) * a.frame_length ≤ a.audio_data.length) :
    (a.get_frame j).length = a.frame_length := by
  unfold AudioFile.get_frame
  rw [List.length_take, List.length_drop]
  rw [Nat.succ_mul] at h
  omega

/-- Frames indexed below `len(self)` are full-length. -/
lemma AudioFile.get_frame_length_of_lt (a : AudioFile) (j : ℕ) (hj : j < a.len) :
    (a.get_frame j).length = a.frame_length := by
  rcases Nat.eq_zero_or_pos a.frame_length with hf | hf
  · rw [AudioFile.len_eq_div, hf] at hj
    omega
  · apply AudioFile.get_frame_length_of_le
    rw [AudioFile.len_eq_div] at hj
    calc (j + 1) * a.frame_length
        ≤ (a.audio_data.length / a.frame_length) * a.frame_length :=
          Nat.mul_le_mul_right _ (Nat.succ_le_of_lt hj)
      _ ≤ a.audio_data.length := Nat.div_mul_le_self _ _

/-- C5: for every `frame_length > 0` and an `AudioSource` holding
`total_samples` samples, `frame_count()` equals
`floor(total_samples / frame_length)`. -/
theorem claim_C5_frame_count (a : AudioFile) (h : 0 < a.frame_length) :
    a.len = a.audio_data.length / a.frame_length := by
  unfold AudioFile.len
  rw [Nat.floor_div_nat, Nat.floor_natCast]

/-- A 5-sample file with `frame_length = 2`. -/
def wavA : AudioFile :=
  { audiofile_path := "a.wav"
    audio_data := [1, 0, 1, 0, 1]
    sample_rate := 8000
    frame_length := 2
    frame_counter := 0 }

/-- Witness for C5 at a concrete file. -/
theorem claim_C5_witness :
    0 < wavA.frame_length ∧ wavA.len = wavA.audio_data.length / wavA.frame_length :=
  ⟨by decide, claim_C5_frame_count wavA (by decide)⟩

/-- C9: `get_frame` is total for every nonnegative `frame_index` — it
never fails and returns a slice of length
`min(frame_length, max(0, total_samples - frame_index*frame_length))`
(being a total function of type `List ℚ`, it cannot raise; out-of-range
indices just produce short or empty slices). -/
theorem claim_C9_get_frame_total (a : AudioFile) (j : ℕ) :
    (a.get_frame j).length
      = min a.frame_length
          ((a.audio_data.length : ℤ) - (j : ℤ) * (a.frame_length : ℤ)).toNat := by
  unfold AudioFile.get_frame
  rw [List.length_take, List.length_drop]
  have h : ((a.audio_data.length : ℤ) - (j : ℤ) * (a.frame_length : ℤ)).toNat
      = a.audio_data.length - j * a.frame_length := by
    omega
  rw [h]

/-- The function `zero_pad` is the identity on frame-aligned data. -/
lemma AudioFile.zero_pad_of_aligned (a : AudioFile)
    (h : a.audio_data.length % a.frame_length = 0) : a.zero_pad = a := by
  rw [AudioFile.zero_pad, if_pos h]

/-- The samples after `zero_pad` on non-aligned data. -/
lemma AudioFile.zero_pad_data (a : AudioFile)
    (h0 : ¬ a.audio_data.length % a.frame_length = 0) :
    a.zero_pad.audio_data
      = a.audio_data
        ++ List.replicate (a.frame_length - a.audio_data.length % a.frame_length) 0 := by
  rw [AudioFile.zero_pad, if_neg h0]

/-- The function `zero_pad` never changes the frame length. -/
lemma AudioFile.zero_pad_frame_length (a : AudioFile) :
    a.zero_pad.frame_length = a.frame_length := by
  rw [AudioFile.zero_pad]
  by_cases h : a.audio_data.length % a.frame_length = 0 <;> simp [h]

/-- The function `zero_pad` never changes the cursor. -/
lemma AudioFile.zero_pad_frame_counter (a : AudioFile) :
    a.zero_pad.frame_counter = a.frame_counter := by
  rw [AudioFile.zero_pad]
  by_cases h : a.audio_data.length % a.frame_length = 0 <;> simp [h]

/-- The function `zero_pad` never shortens the samples. -/
lemma AudioFile.zero_pad_length_ge (a : AudioFile) :
    a.audio_data.length ≤ a.zero_pad.audio_data.length := by
  by_cases h : a.audio_data.length % a.frame_length = 0
  · rw [AudioFile.zero_pad_of_aligned a h]
  · rw [AudioFile.zero_pad_data a h]
    simp

/-- After one non-trivial `zero_pad`, the sample count is frame-aligned. -/
lemma AudioFile.zero_pad_aligned (a : AudioFile) (h : 0 < a.frame_length) :
    a.zero_pad.audio_data.length % a.frame_length = 0 := by
  by_cases h0 : a.audio_data.length % a.frame_length = 0
  · rw [AudioFile.zero_pad_of_aligned a h0]
    exact h0
  · rw [AudioFile.zero_pad_data a h0]
    rw [List.length_append, List.length_replicate]
    have hlt : a.audio_data.length % a.frame_length < a.frame_length :=
      Nat.mod_lt _ h
    rw [Nat.add_mod]
    rw [Nat.mod_eq_of_lt (show a.frame_length - a.audio_data.length % a.frame_length
        < a.frame_length by omega)]
    rw [show a.audio_data.length % a.frame_length
        + (a.frame_length - a.audio_data.length % a.frame_length)
        = a.frame_length by omega]
    simp [Nat.mod_self]

/-- C8: `pad()` pads to a frame boundary, keeps the original samples as an
unchanged prefix, appends only zeros, and is idempotent. -/
theorem claim_C8_zero_pad (a : AudioFile) (h : 0 < a.frame_length) :
    a.zero_pad.zero_pad = a.zero_pad
  ∧ a.zero_pad.audio_data.length % a.frame_length = 0
  ∧ a.zero_pad.audio_data.take a.audio_data.length = a.audio_data
  ∧ (∀ x ∈ a.zero_pad.audio_data.drop a.audio_data.length, x = 0) := by
  refine ⟨?_, ?_, ?_, ?_⟩
  · apply AudioFile.zero_pad_of_aligned
    rw [AudioFile.zero_pad_frame_length]
    exact AudioFile.zero_pad_aligned a h
  · exact AudioFile.zero_pad_aligned a h
  · by_cases h0 : a.audio_data.length % a.frame_length = 0
    · rw [AudioFile.zero_pad_of_aligned a h0, List.take_length]
    · rw [AudioFile.zero_pad_data a h0]
      exact List.take_left _ _
  · by_cases h0 : a.audio_data.length % a.frame_length = 0
    · rw [AudioFile.zero_pad_of_aligned a h0]
      simp
    · rw [AudioFile.zero_pad_data a h0]
      intro x hx
      rw [List.drop_left] at hx
      exact (List.mem_replicate.mp hx).2

/-- A 3-sample file with `frame_length = 2` (one trailing partial frame). -/
def wavB : AudioFile :=
  { audiofile_path := "b.wav"
    audio_data := [1, 2, 3]
    sample_rate := 4
    frame_length := 2
    frame_counter := 0 }

/-- Witness for C8 at a concrete file with a partial trailing frame. -/
theorem claim_C8_witness :
    wavB.zero_pad.zero_pad = wavB.zero_pad
  ∧ wavB.zero_pad.audio_data.length % wavB.frame_length = 0
  ∧ wavB.zero_pad.audio_data.take wavB.audio_data.length = wavB.audio_data
  ∧ (∀ x ∈ wavB.zero_pad.audio_data.drop wavB.audio_data.length, x = 0) :=
  claim_C8_zero_pad wavB (by decide)

/-- The data-model invariant of an `AudioSource`: positive frame length and
`0 <= cursor <= floor(len(samples)/frame_length)` (the lower bound is
implicit in `ℕ`). -/
def AudioFile.inv (a : AudioFile) : Prop :=
  0 < a.frame_length ∧ a.frame_counter ≤ a.audio_data.length / a.frame_length

instance (a : AudioFile) : Decidable a.inv := by
  unfold AudioFile.inv
  infer_instance

/-- Counterexample to C6: from the legal state `cursor = frame_count`
(2 frames of length 2 in 4 samples, cursor 2), `get_next_frame` increments
the cursor unconditionally to 3 and breaks the invariant. -/
def wavC : AudioFile :=
  { audiofile_path := "c.wav"
    audio_data := [1, 2, 3, 4]
    sample_rate := 4
    frame_length := 2
    frame_counter := 2 }

/-- C6 counterexample: `get_next_frame` does not preserve the invariant. -/
theorem claim_C6_counterexample :
    wavC.inv ∧ ¬ (wavC.get_next_frame).2.inv := by decide

/-- C6 as amended: `has_next` and `get_frame` read without mutating any
state; `__next__` (one step of sequential iteration), a full sequential
iteration run, and `pad()` preserve the invariant; `get_next_frame`
preserves it only when the cursor is strictly below `frame_count()`. -/
theorem claim_C6_invariant_preservation (a : AudioFile) (h : a.inv) :
    (a.next.2).inv
  ∧ (a.iterate.2).inv
  ∧ a.zero_pad.inv
  ∧ (a.frame_counter < a.len → (a.get_next_frame).2.inv) := by
  obtain ⟨hf, hc⟩ := h
  refine ⟨?_, ?_, ?_, ?_⟩
  · unfold AudioFile.next
    by_cases hle : a.len ≤ a.frame_counter
    · rw [if_pos hle]
      exact ⟨hf, by simp⟩
    · rw [if_neg hle]
      refine ⟨hf, ?_⟩
      rw [AudioFile.len_eq_div] at hle
      simp only [AudioFile.len_set_counter]
      omega
  · rw [AudioFile.iterate_spec]
    exact ⟨hf, by simp⟩
  · refine ⟨by rw [AudioFile.zero_pad_frame_length]; exact hf, ?_⟩
    rw [AudioFile.zero_pad_frame_counter, AudioFile.zero_pad_frame_length]
    calc a.frame_counter
        ≤ a.audio_data.length / a.frame_length := hc
      _ ≤ a.zero_pad.audio_data.length / a.frame_length :=
          Nat.div_le_div_right (AudioFile.zero_pad_length_ge a)
  · intro hlt
    rw [AudioFile.len_eq_div] at hlt
    exact ⟨hf, by unfold AudioFile.get_next_frame; simp; omega⟩

/-- Witness for the amended C6 at a concrete in-invariant state. -/
theorem claim_C6_witness :
    (wavA.next.2).inv
  ∧ (wavA.iterate.2).inv
  ∧ wavA.zero_pad.inv
  ∧ (wavA.frame_counter < wavA.len → (wavA.get_next_frame).2.inv) :=
  claim_C6_invariant_preservation wavA (by decide)

/-- C7: from a fresh cursor, sequential iteration yields exactly the
`frame_count()` frames `0 .. frame_count()-1` in order; the `__next__`
call on the exhausted state raises `EndOfSequence` (modelled `none`) and
resets the cursor to 0; and restarting iterates the same frames again. -/
theorem claim_C7_sequential_iteration (a : AudioFile) (h : a.frame_counter = 0) :
    a.iterate.1 = (List.range a.len).map a.get_frame
  ∧ a.iterate.1.length = a.len
  ∧ ({ a with frame_counter := a.len } : AudioFile).next
      = (none, { a with frame_counter := 0 })
  ∧ a.iterate.2 = { a with frame_counter := 0 }
  ∧ a.iterate.2.iterate.1 = a.iterate.1 := by
  have hit := AudioFile.iterate_of_counter_zero a h
  refine ⟨?_, ?_, ?_, ?_, ?_⟩
  · rw [hit]
  · rw [hit]; simp
  · unfold AudioFile.next
    rw [if_pos (by simp)]
  · rw [hit]
  · have hit2 := AudioFile.iterate_of_counter_zero
      ({ a with frame_counter := 0 } : AudioFile) rfl
    rw [hit, hit2]
    rfl

/-- Witness for C7 at a concrete file (2 full frames, 1 truncated tail). -/
theorem claim_C7_witness :
    wavA.iterate.1 = (List.range wavA.len).map wavA.get_frame
  ∧ wavA.iterate.1.length = wavA.len
  ∧ ({ wavA with frame_counter := wavA.len } : AudioFile).next
      = (none, { wavA with frame_counter := 0 })
  ∧ wavA.iterate.2 = { wavA with frame_counter := 0 }
  ∧ wavA.iterate.2.iterate.1 = wavA.iterate.1 :=
  claim_C7_sequential_iteration wavA rfl

/-- C10: building the frame index scans every source file through the
iteration protocol, and exhaustion resets each cursor: after construction
the stored source files are exactly the freshly loaded ones (cursor 0, no
other field changed), the target files were never touched, and sequential
iteration of any stored source file starts at frame 0. -/
theorem claim_C10_construction_resets_cursors (decode : String → List ℚ × ℕ)
    (parameters : Parameters) (sources targets : List String) :
    (LstDataset.build decode parameters sources targets).source_audio_files
        = sourceFiles decode parameters sources
  ∧ (∀ a ∈ (LstDataset.build decode parameters sources targets).source_audio_files,
        a.frame_counter = 0)
  ∧ (LstDataset.build decode parameters sources targets).target_audio_files
        = targets.map (fun p => AudioFile.load decode p parameters.frame_length)
  ∧ (∀ a ∈ (LstDataset.build decode parameters sources targets).source_audio_files,
        a.iterate.1 = (List.range a.len).map a.get_frame) := by
  have hsrc := LstDataset.build_source_audio_files decode parameters sources targets
  have hzero : ∀ a ∈ (LstDataset.build decode parameters sources targets).source_audio_files,
      a.frame_counter = 0 := by
    rw [hsrc]
    intro a ha
    simp only [sourceFiles, List.mem_map] at ha
    obtain ⟨p, _, hp⟩ := ha
    rw [← hp]
    rfl
  refine ⟨hsrc, hzero, LstDataset.build_target_audio_files decode parameters sources targets, ?_⟩
  intro a ha
  rw [AudioFile.iterate_of_counter_zero a (hzero a ha)]

/-- C1: the frame index built at construction contains `(p, j)` exactly
when frame `j` of source file `p` has mean squared amplitude strictly
above `1e-8`; its entries are strictly ascending in (file index, frame
index); and `count()` is the number of passing pairs. -/
theorem claim_C1_frame_index (decode : String → List ℚ × ℕ)
    (parameters : Parameters) (sources targets : List String) :
    (∀ p j : ℕ,
        ((p, j) ∈ (LstDataset.build decode parameters sources targets).frames
          ↔ ∃ a, (sourceFiles decode parameters sources)[p]? = some a
              ∧ j < a.len
              ∧ silence_threshold < frame_energy (a.get_frame j)))
  ∧ (LstDataset.build decode parameters sources targets).frames.Pairwise
      (fun x y : ℕ × ℕ => x.1 < y.1 ∨ (x.1 = y.1 ∧ x.2 < y.2))
  ∧ (LstDataset.build decode parameters sources targets).length
      = numPassing (sourceFiles decode parameters sources) := by
  have hfr := LstDataset.build_frames decode parameters sources targets
  refine ⟨?_, ?_, ?_⟩
  · intro p j
    rw [hfr, passLists_mem]
    constructor
    · rintro ⟨t, a, ht, hp, hj, hpass⟩
      refine ⟨a, ?_, hj, ?_⟩
      · rw [show p = t by omega]
        exact ht
      · simpa [passes] using hpass
    · rintro ⟨a, ha, hj, hpass⟩
      exact ⟨p, a, ha, by omega, hj, by simpa [passes] using hpass⟩
  · rw [hfr]
    exact passLists_pairwise _ 0
  · rw [LstDataset.length, hfr]
    exact passLists_length _ 0

/-- Entries found at equal positions of two lists are a member of their zip. -/
lemma mem_zip_of_getElem? {α β : Type} :
    ∀ (l1 : List α) (l2 : List β) (i : ℕ) (a : α) (b : β),
      l1[i]? = some a → l2[i]? = some b → (a, b) ∈ l1.zip l2 := by
  intro l1
  induction l1 with
  | nil => intro l2 i a b h1 _; simp at h1
  | cons x xs ih =>
    intro l2 i a b h1 h2
    cases l2 with
    | nil => simp at h2
    | cons y ys =>
      cases i with
      | zero =>
        simp only [List.getElem?_cons_zero, Option.some.injEq] at h1 h2
        simp [List.zip_cons_cons, ← h1, ← h2]
      | succ i =>
        simp only [List.getElem?_cons_succ] at h1 h2
        simp only [List.zip_cons_cons, List.mem_cons]
        exact Or.inr (ih ys i a b h1 h2)

/-- Lookup via `pyGet` fails exactly outside `[-len, len)`: Python list indexing
resolves negative indices down to `-len` and raises only beyond that. -/
lemma pyGet_eq_none_iff {α : Type} (xs : List α) (i : ℤ) :
    pyGet xs i = none ↔ (i < -(xs.length : ℤ) ∨ (xs.length : ℤ) ≤ i) := by
  unfold pyGet
  by_cases h1 : i < 0
  · simp only [if_pos h1]
    by_cases h2 : i + (xs.length : ℤ) < 0
    · simp only [if_pos h2]
      constructor
      · intro _; left; omega
      · intro _; trivial
    · simp only [if_neg h2]
      rw [List.getElem?_eq_none_iff]
      omega
  · simp only [if_neg h1]
    rw [List.getElem?_eq_none_iff]
    omega

/-- Every file index stored in the frame list is a valid source index. -/
lemma LstDataset.frames_fst_lt (decode : String → List ℚ × ℕ)
    (parameters : Parameters) (sources targets : List String) (p j : ℕ)
    (hm : (p, j) ∈ (LstDataset.build decode parameters sources targets).frames) :
    p < sources.length := by
  rw [LstDataset.build_frames, passLists_mem] at hm
  obtain ⟨t, a, hta, hpt, -, -⟩ := hm
  obtain ⟨hlt, -⟩ := List.getElem?_eq_some.mp hta
  unfold sourceFiles at hlt
  rw [List.length_map] at hlt
  omega

/-- A successful `pyGet` returns an element of the list. -/
lemma pyGet_mem {α : Type} {xs : List α} {i : ℤ} {x : α}
    (h : pyGet xs i = some x) : x ∈ xs := by
  simp only [pyGet] at h
  by_cases h1 : (if i < 0 then i + (xs.length : ℤ) else i) < 0
  · rw [if_pos h1] at h
    exact absurd h (by simp)
  · rw [if_neg h1] at h
    exact List.getElem?_mem h

/-- Reading via `get` on a built dataset fails exactly when the frame-list lookup
fails: whenever the flat index resolves, both audio arrays cover the
file index (so the result is a pair, not an error). -/
lemma LstDataset.getitem_eq_none_iff (decode : String → List ℚ × ℕ)
    (parameters : Parameters) (sources targets : List String)
    (hlen : targets.length = sources.length) (idx : ℤ) :
    (LstDataset.build decode parameters sources targets).getitem idx = none
      ↔ pyGet (LstDataset.build decode parameters sources targets).frames idx = none := by
  unfold LstDataset.getitem
  cases hpy : pyGet (LstDataset.build decode parameters sources targets).frames idx with
  | none => simp
  | some pr =>
    obtain ⟨p, j⟩ := pr
    have hp : p < sources.length :=
      LstDataset.frames_fst_lt decode parameters sources targets p j (pyGet_mem hpy)
    have hps : p < (LstDataset.build decode parameters sources
        targets).source_audio_files.length := by
      rw [LstDataset.build_source_audio_files]
      unfold sourceFiles
      rw [List.length_map]
      exact hp
    have hpt : p < (LstDataset.build decode parameters sources
        targets).target_audio_files.length := by
      rw [LstDataset.build_target_audio_files]
      rw [List.length_map]
      omega
    simp [List.getElem?_eq_getElem hps, List.getElem?_eq_getElem hpt]

/-- C4 as amended: `get(flat_index)` fails with `IndexOutOfRange` if and
only if `flat_index` is outside `[-count(), count())` — Python's negative
indexing silently resolves indices in `[-count(), 0)` to frame pairs from
the end of the index, so only indices below `-count()` or at/above
`count()` raise; in particular `get(count())` fails. -/
theorem claim_C4_index_errors (decode : String → List ℚ × ℕ)
    (parameters : Parameters) (sources targets : List String)
    (hlen : targets.length = sources.length) (idx : ℤ) :
    ((LstDataset.build decode parameters sources targets).getitem idx = none
      ↔ (idx < -(((LstDataset.build decode parameters sources targets).length : ℤ))
          ∨ (((LstDataset.build decode parameters sources targets).length : ℤ) ≤ idx)))
  ∧ (LstDataset.build decode parameters sources targets).getitem
      (((LstDataset.build decode parameters sources targets).length : ℤ)) = none := by
  constructor
  · rw [LstDataset.getitem_eq_none_iff decode parameters sources targets hlen idx]
    exact pyGet_eq_none_iff _ idx
  · rw [LstDataset.getitem_eq_none_iff decode parameters sources targets hlen]
    rw [pyGet_eq_none_iff]
    right
    exact le_refl _

/-- C3: for the same manifest and flat index, the resident variant and the
on-demand variant return identical (source_frame, target_frame) pairs
(`decode` is a function, hence deterministic). -/
theorem claim_C3_variants_agree (decode : String → List ℚ × ℕ)
    (parameters : Parameters) (sources targets : List String) (idx : ℤ)
    (h : 0 ≤ idx
      ∧ idx < ((LstDataset.build decode parameters sources targets).length : ℤ)) :
    (LstDataset.build decode parameters sources targets).getitem idx
      = DatasetFromDisk.getitem decode
          (DatasetFromDisk.build decode parameters sources targets) idx := by
  have hframes : (DatasetFromDisk.build decode parameters sources targets).frames
      = (LstDataset.build decode parameters sources targets).frames := rfl
  unfold LstDataset.getitem DatasetFromDisk.getitem
  rw [hframes]
  cases hpy : pyGet (LstDataset.build decode parameters sources targets).frames idx with
  | none => rfl
  | some pr =>
    obtain ⟨p, j⟩ := pr
    have hs := LstDataset.build_source_audio_files decode parameters sources targets
    have ht := LstDataset.build_target_audio_files decode parameters sources targets
    have hls : (DatasetFromDisk.build decode parameters sources targets).lst_source
        = sources := rfl
    have hlt : (DatasetFromDisk.build decode parameters sources targets).lst_target
        = targets := rfl
    rw [hs, ht, hls, hlt]
    unfold sourceFiles
    simp only [List.getElem?_map]
    cases hsp : sources[p]? with
    | none => rfl
    | some sp =>
      cases htp : targets[p]? with
      | none => rfl
      | some tp => rfl

/-- C2 as amended: for manifests in which every target file decodes to at
least as many samples as its paired source file (the code assumes target
frames are aligned one-to-one with source frames and never checks target
length), `get(flat_index)` returns a (source_frame, target_frame) pair in
which both frames have length exactly `frame_length` and shape
`[frame_length, 1]`, for every `flat_index` in `[0, count())`. -/
theorem claim_C2_frame_shapes (decode : String → List ℚ × ℕ)
    (parameters : Parameters) (sources targets : List String)
    (hfl : 0 < parameters.frame_length)
    (hlen : targets.length = sources.length)
    (htgt : ∀ pr ∈ sources.zip targets,
        (decode pr.1).1.length ≤ (decode pr.2).1.length)
    (idx : ℕ)
    (hidx : idx < (LstDataset.build decode parameters sources targets).length) :
    ∃ s t,
      (LstDataset.build decode parameters sources targets).getitem (idx : ℤ)
          = some (s, t)
      ∧ s.length = parameters.frame_length
      ∧ t.length = parameters.frame_length
      ∧ (∀ r ∈ s, r.length = 1) ∧ (∀ r ∈ t, r.length = 1) := by
  have hidx' : idx < (LstDataset.build decode parameters sources targets).frames.length :=
    hidx
  obtain ⟨⟨p, j⟩, hpr⟩ : ∃ pr,
      (LstDataset.build decode parameters sources targets).frames[idx]? = some pr :=
    ⟨_, List.getElem?_eq_getElem hidx'⟩
  have hmem : (p, j) ∈ (LstDataset.build decode parameters sources targets).frames :=
    List.getElem?_mem hpr
  rw [LstDataset.build_frames, passLists_mem] at hmem
  obtain ⟨t0, a, hta, hpt, hj, hpass⟩ := hmem
  have hpt' : p = t0 := by omega
  subst hpt'
  obtain ⟨sp, hsp, hasp⟩ : ∃ sp, sources[p]? = some sp
      ∧ a = AudioFile.load decode sp parameters.frame_length := by
    unfold sourceFiles at hta
    rw [List.getElem?_map] at hta
    obtain ⟨sp, h1, h2⟩ := Option.map_eq_some'.mp hta
    exact ⟨sp, h1, h2.symm⟩
  subst hasp
  have hplt : p < sources.length := by
    obtain ⟨hl, -⟩ := List.getElem?_eq_some.mp hsp
    exact hl
  obtain ⟨tp, htp⟩ : ∃ tp, targets[p]? = some tp :=
    ⟨_, List.getElem?_eq_getElem (by omega)⟩
  have hpy : pyGet (LstDataset.build decode parameters sources targets).frames
      (idx : ℤ) = some (p, j) := by
    have h0 : ¬ ((idx : ℤ) < 0) := by omega
    simp only [pyGet, if_neg h0, Int.toNat_ofNat]
    exact hpr
  have hsl : (LstDataset.build decode parameters sources
      targets).source_audio_files[p]?
        = some (AudioFile.load decode sp parameters.frame_length) := by
    rw [LstDataset.build_source_audio_files]
    unfold sourceFiles
    rw [List.getElem?_map, hsp]
    rfl
  have htl : (LstDataset.build decode parameters sources
      targets).target_audio_files[p]?
        = some (AudioFile.load decode tp parameters.frame_length) := by
    rw [LstDataset.build_target_audio_files]
    rw [List.getElem?_map, htp]
    rfl
  have hslen : ((AudioFile.load decode sp parameters.frame_length).get_frame j).length
      = parameters.frame_length :=
    AudioFile.get_frame_length_of_lt _ j hj
  have hmul : (j + 1) * parameters.frame_length ≤ (decode sp).1.length := by
    have hj' : j < (decode sp).1.length / parameters.frame_length := by
      have := hj
      rw [AudioFile.len_eq_div] at this
      exact this
    calc (j + 1) * parameters.frame_length
        ≤ ((decode sp).1.length / parameters.frame_length) * parameters.frame_length :=
          Nat.mul_le_mul_right _ (Nat.succ_le_of_lt hj')
      _ ≤ (decode sp).1.length := Nat.div_mul_le_self _ _
  have htlen : ((AudioFile.load decode tp parameters.frame_length).get_frame j).length
      = parameters.frame_length := by
    apply AudioFile.get_frame_length_of_le
    show (j + 1) * parameters.frame_length ≤ (decode tp).1.length
    have h2 : (decode sp).1.length ≤ (decode tp).1.length :=
      htgt (sp, tp) (mem_zip_of_getElem? sources targets p sp tp hsp htp)
    omega
  refine ⟨unsqueeze1 ((AudioFile.load decode sp parameters.frame_length).get_frame j),
         unsqueeze1 ((AudioFile.load decode tp parameters.frame_length).get_frame j),
         ?_, ?_, ?_, ?_, ?_⟩
  · unfold LstDataset.getitem
    rw [hpy]
    simp only [hsl, htl]
  · unfold unsqueeze1
    rw [List.length_map]
    exact hslen
  · unfold unsqueeze1
    rw [List.length_map]
    exact htlen
  · intro r hr
    obtain ⟨x, -, hx⟩ := List.mem_map.mp hr
    rw [← hx]
    rfl
  · intro r hr
    obtain ⟨x, -, hx⟩ := List.mem_map.mp hr
    rw [← hx]
    rfl

/-- A two-file manifest: the source file has one loud and one silent
frame, the target file is loud throughout. -/
def decodeW : String → List ℚ × ℕ := fun p =>
  if p == "tgt" then ([1, 1, 1, 1], 8) else ([1, 1, 0, 0], 8)

/-- The dataset built over `decodeW` with `frame_length = 2`. -/
def dW : LstDataset := LstDataset.build decodeW ⟨2⟩ ["src"] ["tgt"]

lemma dW_source_file_len : (AudioFile.load decodeW "src" 2).len = 2 := by
  rw [AudioFile.len_eq_div]
  rfl

lemma dW_passes0 : passes (AudioFile.load decodeW "src" 2) 0 = true := by
  have hframe : (AudioFile.load decodeW "src" 2).get_frame 0 = [1, 1] := rfl
  unfold passes
  rw [hframe]
  simp only [decide_eq_true_eq]
  norm_num [frame_energy, silence_threshold]

lemma dW_passes1 : passes (AudioFile.load decodeW "src" 2) 1 = false := by
  have hframe : (AudioFile.load decodeW "src" 2).get_frame 1 = [0, 0] := rfl
  unfold passes
  rw [hframe]
  simp only [decide_eq_false_iff_not]
  norm_num [frame_energy, silence_threshold]

lemma dW_frames : dW.frames = [(0, 0)] := by
  show (LstDataset.build decodeW ⟨2⟩ ["src"] ["tgt"]).frames = [(0, 0)]
  rw [LstDataset.build_frames]
  have hsf : sourceFiles decodeW ⟨2⟩ ["src"] = [AudioFile.load decodeW "src" 2] := rfl
  rw [hsf]
  simp only [passLists, passList, dW_source_file_len]
  rw [show List.range 2 = [0, 1] from rfl]
  rw [List.filter_cons, List.filter_cons, List.filter_nil]
  rw [dW_passes0, dW_passes1]
  simp

lemma dW_length : dW.length = 1 := by
  show dW.frames.length = 1
  rw [dW_frames]
  rfl

lemma dW_source_files : dW.source_audio_files = [AudioFile.load decodeW "src" 2] := by
  show (LstDataset.build decodeW ⟨2⟩ ["src"] ["tgt"]).source_audio_files = _
  rw [LstDataset.build_source_audio_files]
  rfl

lemma dW_target_files : dW.target_audio_files = [AudioFile.load decodeW "tgt" 2] := rfl

lemma dW_getitem_neg1 : dW.getitem (-1) = some ([[1], [1]], [[1], [1]]) := by
  have hpy : pyGet dW.frames (-1) = some (0, 0) := by
    rw [dW_frames]
    rfl
  unfold LstDataset.getitem
  rw [hpy, dW_source_files, dW_target_files]
  rfl

/-- A manifest whose target file decodes to no samples at all while its
source file has one loud frame. -/
def decodeShort : String → List ℚ × ℕ := fun p =>
  if p == "t" then ([], 8) else ([1, 1], 8)

/-- The dataset built over `decodeShort` with `frame_length = 2`. -/
def dsShort : LstDataset := LstDataset.build decodeShort ⟨2⟩ ["s"] ["t"]

lemma dsShort_source_file_len : (AudioFile.load decodeShort "s" 2).len = 1 := by
  rw [AudioFile.len_eq_div]
  rfl

lemma dsShort_passes0 : passes (AudioFile.load decodeShort "s" 2) 0 = true := by
  have hframe : (AudioFile.load decodeShort "s" 2).get_frame 0 = [1, 1] := rfl
  unfold passes
  rw [hframe]
  simp only [decide_eq_true_eq]
  norm_num [frame_energy, silence_threshold]

lemma dsShort_frames : dsShort.frames = [(0, 0)] := by
  show (LstDataset.build decodeShort ⟨2⟩ ["s"] ["t"]).frames = [(0, 0)]
  rw [LstDataset.build_frames]
  have hsf : sourceFiles decodeShort ⟨2⟩ ["s"] = [AudioFile.load decodeShort "s" 2] := rfl
  rw [hsf]
  simp only [passLists, passList, dsShort_source_file_len]
  rw [show List.range 1 = [0] from rfl]
  rw [List.filter_cons, List.filter_nil]
  rw [dsShort_passes0]
  simp

lemma dsShort_source_files :
    dsShort.source_audio_files = [AudioFile.load decodeShort "s" 2] := by
  show (LstDataset.build decodeShort ⟨2⟩ ["s"] ["t"]).source_audio_files = _
  rw [LstDataset.build_source_audio_files]
  rfl

lemma dsShort_getitem0 : dsShort.getitem 0 = some ([[1], [1]], []) := by
  have hpy : pyGet dsShort.frames 0 = some (0, 0) := by
    rw [dsShort_frames]
    rfl
  have htf : dsShort.target_audio_files = [AudioFile.load decodeShort "t" 2] := rfl
  unfold LstDataset.getitem
  rw [hpy, dsShort_source_files, htf]
  rfl

/-- C2 counterexample: with a decodable but too-short target file, the
in-range call `get(0)` succeeds yet returns a target frame of length 0,
not `frame_length = 2` — the claim fails for this manifest. -/
theorem claim_C2_counterexample :
    dsShort.length = 1
  ∧ dsShort.parameters.frame_length = 2
  ∧ dsShort.getitem 0 = some ([[1], [1]], ([] : List (List ℚ)))
  ∧ (([] : List (List ℚ)).length ≠ dsShort.parameters.frame_length) := by
  refine ⟨?_, rfl, dsShort_getitem0, by decide⟩
  show dsShort.frames.length = 1
  rw [dsShort_frames]
  rfl

/-- Witness for the amended C2 at `dW`, flat index 0. -/
theorem claim_C2_witness :
    ∃ s t, dW.getitem ((0 : ℕ) : ℤ) = some (s, t)
      ∧ s.length = dW.parameters.frame_length
      ∧ t.length = dW.parameters.frame_length
      ∧ (∀ r ∈ s, r.length = 1) ∧ (∀ r ∈ t, r.length = 1) :=
  claim_C2_frame_shapes decodeW ⟨2⟩ ["src"] ["tgt"] (by decide) rfl
    (by
      intro pr hpr
      simp only [List.zip_cons_cons, List.zip_nil_right, List.mem_singleton] at hpr
      subst hpr
      decide)
    0 (by show 0 < dW.length; rw [dW_length]; decide)

/-- Witness for C3 at `dW`, flat index 0. -/
theorem claim_C3_witness :
    dW.getitem 0
      = DatasetFromDisk.getitem decodeW
          (DatasetFromDisk.build decodeW ⟨2⟩ ["src"] ["tgt"]) 0 :=
  claim_C3_variants_agree decodeW ⟨2⟩ ["src"] ["tgt"] 0
    ⟨by decide, by show (0 : ℤ) < (dW.length : ℤ); rw [dW_length]; decide⟩

/-- C4 counterexample: on a dataset with `count() = 1`, the out-of-range
index `-1` is not rejected: Python's negative indexing silently resolves
it to the last frame pair. -/
theorem claim_C4_counterexample :
    dW.getitem (-1) = some ([[1], [1]], [[1], [1]]) ∧ ¬ (0 ≤ (-1 : ℤ)) :=
  ⟨dW_getitem_neg1, by decide⟩

/-- Witness for the amended C4 at `dW`, index 5. -/
theorem claim_C4_witness :
    ((dW.getitem 5 = none
      ↔ ((5 : ℤ) < -((dW.length : ℤ)) ∨ ((dW.length : ℤ) ≤ (5 : ℤ)))))
  ∧ dW.getitem ((dW.length : ℤ)) = none :=
  ⟨(claim_C4_index_errors decodeW ⟨2⟩ ["src"] ["tgt"] rfl 5).1,
   (claim_C4_index_errors decodeW ⟨2⟩ ["src"] ["tgt"] rfl 5).2⟩
